import Mathlib

/-!
Shallow embedding of `src/converter.py` from the AI-Studio-Log-Converter
repository, together with proofs about the claims on its behaviour.

Conventions used throughout:
* Python strings are Lean `String`s; `str.strip()` is modelled by `pyStrip`
  over the ASCII whitespace set (Unicode whitespace is not modelled).
* Python dictionaries holding log data are modelled by structures whose
  fields are `Option`s; `none` models an absent key.  Where the code tests
  a value for truthiness, an explicit helper makes the Python rule visible.
* External library calls (`urllib.parse.unquote`, `urlparse(...).hostname`,
  the filesystem writes of `save_image_from_base64`, localisation lookups
  and `str.format` on user-supplied templates) are parameters of the model:
  the converter only pipes their results through.
-/

namespace LogConv

/-- ASCII whitespace characters stripped by Python `str.strip()`. -/
def pySpace (c : Char) : Bool :=
  c == ' ' || c == '\t' || c == '\n' || c == '\x0d' || c == '\x0b' || c == '\x0c'

/-- Model of Python `str.strip()` (ASCII whitespace only). -/
def pyStrip (s : String) : String :=
  String.mk (((s.data.dropWhile pySpace).reverse.dropWhile pySpace).reverse)

/-- Model of `text.replace(chr(10), chr(10) + '> ')`: re-indent newlines as
quoted continuation lines. -/
def indentQuoted (s : String) : String :=
  String.mk (List.flatten (s.data.map (fun c => if c == '\n' then ['\n', '>', ' '] else [c])))

/-- Whether `needle` occurs as a contiguous substring of `hay`
(Python `needle in hay` on strings, via the character lists). -/
def hasSub (needle hay : List Char) : Bool :=
  needle.isPrefixOf hay ||
    match hay with
    | [] => false
    | _ :: t => hasSub needle t

/-- Model of `"\n\n".join(...)`-style joins. -/
def joinSep (sep : String) : List String → String
  | [] => ""
  | [s] => s
  | s :: rest => s ++ sep ++ joinSep sep rest

/-- Python truthiness of an optional string (`None` and `""` are falsy). -/
def strTruthy : Option String → Bool
  | none => false
  | some s => s != ""

/-- Python rendering of an optional string inside an f-string
(`None` prints as `None`). -/
def pyShowOpt : Option String → String
  | none => "None"
  | some s => s

/-- A Google-Drive attachment object (`driveImage` / `driveDocument` /
`driveVideo` values): an `id` and an optional `title`. -/
structure DriveAtt where
  id : Option String
  title : Option String
deriving DecidableEq

/-- An `inlineData` object: base64 payload and MIME type. -/
structure InlineData where
  data : Option String
  mimeType : Option String
deriving DecidableEq

/-- A `youtubeVideo` object. -/
structure YouTubeVideo where
  id : Option String
deriving DecidableEq

/-- One entry of `groundingSources`. -/
structure GSource where
  uri : Option String
  title : Option String
  referenceNumber : Option Nat
deriving DecidableEq

/-- A `grounding` object.  Absent lists are modelled as `[]`, matching the
`.get(..., [])` defaults in the code.  Unknown extra keys (which would make
an otherwise empty grounding dict truthy) are not modelled. -/
structure Grounding where
  webSearchQueries : List String
  groundingSources : List GSource
deriving DecidableEq

/-- Python truthiness of a grounding dict (non-empty dict).  With only the
two modelled keys, the dict is non-empty iff one of the lists was supplied;
we conservatively use non-emptiness of the lists. -/
def groundingTruthy (g : Grounding) : Bool :=
  g.webSearchQueries != [] || g.groundingSources != []

/-- One element of a chunk's `parts` array. -/
structure LPart where
  text : Option String
  inlineData : Option InlineData
  driveImage : Option DriveAtt
  driveDocument : Option DriveAtt
  driveVideo : Option DriveAtt
deriving DecidableEq

/-- One conversation chunk.  `parts` defaults to `[]` as in
`chunk.get('parts', [])`.  An attachment value of `none` models a key that
is absent or whose dict value is falsy (the code tests the walrus-bound
value for truthiness before using it). -/
structure Chunk where
  role : Option String := none
  text : Option String := none
  isThought : Bool := false
  grounding : Option Grounding := none
  driveImage : Option DriveAtt := none
  driveDocument : Option DriveAtt := none
  driveVideo : Option DriveAtt := none
  youtubeVideo : Option YouTubeVideo := none
  inlineData : Option InlineData := none
  parts : List LPart := []
deriving DecidableEq

/-- The `systemInstruction` object.  `extraKeys` records whether the raw
dict carries keys other than `text`, which affects its Python truthiness
in the validity gate. -/
structure SystemInstruction where
  text : Option String := none
  extraKeys : Bool := false
deriving DecidableEq

/-- The `chunkedPrompt` object. -/
structure ChunkedPrompt where
  chunks : Option (List Chunk) := none
  pendingInputs : Option (List Chunk) := none
deriving DecidableEq

/-- The `runSettings` object.  Numeric values are modelled by their printed
form, since the code only interpolates them into f-strings. -/
structure RunSettings where
  model : Option String := none
  temperature : Option String := none
  topP : Option String := none
  topK : Option String := none
  googleSearch : Bool := false
  enableSearchAsATool : Bool := false
deriving DecidableEq

/-- A parsed log document (a JSON object).  `extraKeys` records whether the
raw object has keys beyond the modelled ones (for Python truthiness). -/
structure LogData where
  systemInstruction : Option SystemInstruction := none
  chunkedPrompt : Option ChunkedPrompt := none
  history : Option (List Chunk) := none
  runSettings : Option RunSettings := none
  extraKeys : Bool := false
deriving DecidableEq

/-- Python `a or b` on an optional chunk list against a fallback list:
the left value wins iff it is a truthy (non-empty) list. -/
def pyOrList (a : Option (List Chunk)) (b : List Chunk) : List Chunk :=
  match a with
  | some (c :: cs) => c :: cs
  | _ => b

/-- Support for `get_clean_title`: the anchored regex `^\d{4}-\d{2}-\d{2} - (.*)`.
`dateRest cs` returns the characters after the 13-character date prefix
when the prefix matches, `none` otherwise.  Python `\d` also accepts
non-ASCII digits; the model uses ASCII digits, which is what the claims
quantify over. -/
def dateRest : List Char → Option (List Char)
  | c1 :: c2 :: c3 :: c4 :: c5 :: c6 :: c7 :: c8 :: c9 :: c10 :: c11 :: c12 :: c13 :: rest =>
    if c1.isDigit && c2.isDigit && c3.isDigit && c4.isDigit && c5 == '-' &&
       c6.isDigit && c7.isDigit && c8 == '-' && c9.isDigit && c10.isDigit &&
       c11 == ' ' && c12 == '-' && c13 == ' ' then some rest else none
  | _ => none

/-- Model of `get_clean_title` from `converter.py`: strip a leading
`YYYY-MM-DD - ` date prefix.  The regex group `(.*)` does not cross a
newline, so the captured remainder stops at the first `'\n'`. -/
def get_clean_title (s : String) : String :=
  match dateRest s.data with
  | some rest => String.mk (rest.takeWhile (fun ch => ch != '\n'))
  | none => s

/-- Localised labels consumed by `format_grounding_data`
(`lang_templates['grounding_metadata']`, with the in-code fallbacks as
defaults). -/
structure GroundingLoc where
  spoiler_header : String := "Sources Used"
  queries_header : String := "**Search Queries:**"
  sources_header : String := "**Sources:**"

/-- The visible link text chosen for one grounding source:
`source.get('title') or urlparse(uri).hostname if uri else "Source"`,
which parses as `(title or hostname) if uri else "Source"`.
`hostname` stands for `urlparse(·).hostname` and may return `none`. -/
def sourceVisible (hostname : String → Option String) (s : GSource) : String :=
  match s.uri with
  | some u =>
    if u != "" then
      match s.title with
      | some t => if t != "" then t else pyShowOpt (hostname u)
      | none => pyShowOpt (hostname u)
    else "Source"
  | none => "Source"

/-- Rendering of `source.get('referenceNumber', '')` inside the f-string. -/
def refNumText : Option Nat → String
  | none => ""
  | some n => toString n

/-- One rendered source line `> {num}. [{title}]({uri})`. -/
def sourceLine (hostname : String → Option String) (s : GSource) : String :=
  "> " ++ refNumText s.referenceNumber ++ ". [" ++ sourceVisible hostname s ++
    "](" ++ pyShowOpt s.uri ++ ")"

/-- Model of `format_grounding_data` from `converter.py`, with `hostname` standing
for `urlparse(·).hostname`.  Builds the content lines exactly in code
order and joins them with newlines. -/
def format_grounding_data (hostname : String → Option String)
    (loc : GroundingLoc) (g : Grounding) : String :=
  let content := ["> [!info]- " ++ loc.spoiler_header]
  let content := if g.webSearchQueries != [] then
      content ++ ["> " ++ loc.queries_header] ++
        g.webSearchQueries.map (fun q => "> - `" ++ q ++ "`")
    else content
  let content := if g.groundingSources != [] then
      content ++ (if g.webSearchQueries != [] then [">"] else []) ++
        ["> " ++ loc.sources_header] ++
        g.groundingSources.map (sourceLine hostname)
    else content
  joinSep "\n" content

/-- External collaborators used by the converter: `save_image` models
`save_image_from_base64` (its returned Markdown fragment; the asset write
and the timestamped filename are environmental), `unquote` models
`urllib.parse.unquote`, and `hostname` models `urlparse(...).hostname`. -/
structure Env where
  save_image : String → String → String
  unquote : String → String
  hostname : String → Option String

/-- The localisation surface consumed by `_build_conversation_turns`:
`roleHeader role` models `lang_templates.get(role + "_header", default)`,
the two template functions model `str.format` applied to the externally
supplied template strings. -/
structure Templates where
  roleHeader : String → String
  thought_block_template : String → String
  system_instruction_header : String
  system_instruction_template : String → String → String
  grounding : GroundingLoc := {}

/-- The configuration keys read by the core.  `filename_template` models
`config['filename_template'].format(date=..., gdrive_indicator=...,
basename=...)` as a function of the three substituted values, in that
argument order. -/
structure Config where
  enable_frontmatter : Bool := false
  enable_metadata_table : Bool := false
  enable_grounding_metadata : Bool := false
  enable_gdrive_indicator : Bool := false
  gdrive_filename_indicator : String := ""
  filename_template : String → String → String → String :=
    fun date _ base => date ++ " - " ++ base ++ ".md"

/-- Rendering of one Drive attachment field on a chunk or part
(`converter.py` lines 151-156 and 178-182): a fragment is produced only
when the attachment value and its `id` are truthy. -/
def driveLink (env : Env) (label : String) : Option DriveAtt → List String
  | none => []
  | some a =>
    match a.id with
    | some fid =>
      if fid != "" then
        ["[" ++ env.unquote (a.title.getD (label ++ " from Google Drive")) ++
          " (ID: " ++ fid ++ ")](https://drive.google.com/file/d/" ++ fid ++ ")"]
      else []
    | none => []

/-- Rendering of a `youtubeVideo` field (lines 158-160). -/
def ytLink : Option YouTubeVideo → List String
  | none => []
  | some yv =>
    match yv.id with
    | some vid =>
      if vid != "" then
        ["[YouTube Video (ID: " ++ vid ++ ")](https://www.youtube.com/watch?v=" ++ vid ++ ")"]
      else []
    | none => []

/-- Rendering of an `inlineData` field (lines 162-165): both the payload
and the MIME type must be truthy before `save_image_from_base64` runs. -/
def inlineFrag (env : Env) : Option InlineData → List String
  | none => []
  | some idt =>
    match idt.data with
    | some b =>
      if b != "" then
        match idt.mimeType with
        | some m => if m != "" then [env.save_image b m] else []
        | none => []
      else []
    | none => []

/-- The fragments produced by one entry of a `parts` array
(lines 167-182).  Note the `elif` in the source: `inlineData` is only
consulted when the part has no `text` key. -/
def partFragments (env : Env) (p : LPart) : List String :=
  (match p.text with
   | some t => [pyStrip t]
   | none => inlineFrag env p.inlineData) ++
  driveLink env "Image" p.driveImage ++
  driveLink env "Document" p.driveDocument ++
  driveLink env "Video" p.driveVideo

/-- The value `full_part_text = "".join(part_content)` (line 184). -/
def fullPartText (frags : List String) : String :=
  String.mk (List.flatten (frags.map String.data))

/-- The duplicate guard of lines 184-186: the concatenated part text is
dropped when it already occurs inside an existing content fragment. -/
def dedupAppend (content frags : List String) : List String :=
  if content.any (fun cp => hasSub (fullPartText frags).data cp.data) then content
  else content ++ frags

/-- State of one turn while its run of chunks is scanned. -/
structure TurnState where
  turn_content : List String
  pending_thoughts : List String
  grounding_data : Option Grounding

/-- One step of the `for part in chunk.get('parts', [])` loop. -/
def partStep (env : Env) (s : TurnState) (p : LPart) : TurnState :=
  { s with turn_content := dedupAppend s.turn_content (partFragments env p) }

/-- Processing of a single chunk of the current run (the body of the
`for chunk in turn_chunks` loop, lines 137-186). -/
def processChunk (env : Env) (ctx : Templates) (current_role : String)
    (st : TurnState) (c : Chunk) : TurnState :=
  if current_role == "model" && c.isThought then
    let thought_text := pyStrip (c.text.getD "")
    if thought_text != "" then
      { st with pending_thoughts :=
          st.pending_thoughts ++ [ctx.thought_block_template (indentQuoted thought_text)] }
    else st
  else
    let st := if c.grounding.isSome then { st with grounding_data := c.grounding } else st
    let st := match c.text with
      | some t => { st with turn_content := st.turn_content ++ [pyStrip t] }
      | none => st
    let st := { st with turn_content :=
        (st.turn_content ++ driveLink env "Image" c.driveImage ++
          driveLink env "Document" c.driveDocument ++ driveLink env "Video" c.driveVideo ++
          ytLink c.youtubeVideo ++ inlineFrag env c.inlineData) }
    c.parts.foldl (partStep env) st

/-- The rendered system-instruction spoiler block (lines 131-134). -/
def spoilerBlock (ctx : Templates) (system_instruction : String) : String :=
  ctx.system_instruction_template ctx.system_instruction_header (indentQuoted system_instruction)

/-- The content fragments a run of chunks contributes (lines 125-192):
initial spoiler for the very first turn when it is a user turn, the chunk
scan, then for model runs the pending thoughts are prepended and the
grounding block is appended when enabled. -/
def runContent (env : Env) (ctx : Templates) (cfg : Config)
    (system_instruction : String) (first : Bool) (role : String)
    (run : List Chunk) : List String :=
  let init : TurnState :=
    { turn_content :=
        if first && role == "user" && system_instruction != "" then
          [spoilerBlock ctx system_instruction]
        else [],
      pending_thoughts := [], grounding_data := none }
  let st := run.foldl (processChunk env ctx role) init
  let content := if role == "model" then st.pending_thoughts ++ st.turn_content
                 else st.turn_content
  if role == "model" then
    match st.grounding_data with
    | some g =>
      if groundingTruthy g && cfg.enable_grounding_metadata then
        content ++ [format_grounding_data env.hostname ctx.grounding g]
      else content
    | none => content
  else content

/-- Lines 194-195: a turn is emitted iff `turn_content` is a non-empty
list; empty-string fragments are filtered out of the joined body only. -/
def renderRun (env : Env) (ctx : Templates) (cfg : Config)
    (system_instruction : String) (first : Bool) (role : String)
    (run : List Chunk) : Option String :=
  let content := runContent env ctx cfg system_instruction first role run
  if content.isEmpty then none
  else some (ctx.roleHeader role ++ "\n\n" ++ joinSep "\n\n" (content.filter (fun s => s != "")))

/-- The grouping predicate of the inner `while` loop (line 121):
`chunks[j].get('role') == current_role`. -/
def chunkRoleEq (c : Chunk) (x : Chunk) : Bool := x.role == c.role

/-- The outer `while i < len(chunks)` loop of `_build_conversation_turns`
(lines 112-197).  The boolean argument tracks whether the scan position is
still index `0` (relevant to the `i == 0` test on line 130); a chunk
without a truthy role is dropped. -/
def buildTurnsAux (env : Env) (ctx : Templates) (cfg : Config)
    (system_instruction : String) : Bool → List Chunk → List String
  | _, [] => []
  | first, c :: rest =>
    if strTruthy c.role then
      (renderRun env ctx cfg system_instruction first (c.role.getD "")
          (c :: rest.takeWhile (chunkRoleEq c))).toList ++
        buildTurnsAux env ctx cfg system_instruction false (rest.dropWhile (chunkRoleEq c))
    else
      buildTurnsAux env ctx cfg system_instruction false rest
termination_by _ l => l.length
decreasing_by
  all_goals simp only [List.length_cons]
  · exact Nat.lt_succ_of_le ((List.dropWhile_sublist _).length_le)
  · exact Nat.lt_succ_self _

/-- The ordered-fallback conversation source of line 106:
`chunks or pendingInputs or history`. -/
def chunkSource (d : LogData) : List Chunk :=
  let cp := d.chunkedPrompt.getD {}
  pyOrList cp.chunks (pyOrList cp.pendingInputs (d.history.getD []))

/-- Line 104: `(log_data.get('systemInstruction', {}).get('text') or '').strip()`. -/
def sysInstrText (d : LogData) : String :=
  pyStrip ((d.systemInstruction.bind (fun si => si.text)).getD "")

/-- Model of `_build_conversation_turns` from `converter.py`. -/
def buildConversationTurns (env : Env) (ctx : Templates) (cfg : Config)
    (d : LogData) : String :=
  let system_instruction := sysInstrText d
  let chunks := chunkSource d
  if system_instruction == "" && chunks.isEmpty then ""
  else joinSep "\n\n***\n\n" (buildTurnsAux env ctx cfg system_instruction true chunks)

/-- Localised labels for `_build_metadata_table`, with the in-code
fallback defaults. -/
structure MetaLoc where
  header_parameter : String := "Parameter"
  header_value : String := "Value"
  model : String := "**Model**"
  temperature : String := "**Temperature**"
  top_p : String := "**Top-P**"
  top_k : String := "**Top-K**"
  web_search : String := "**Web Search**"
  search_enabled : String := "Enabled"
  search_disabled : String := "Disabled"

/-- Python truthiness of the `runSettings` dict, over the modelled keys. -/
def rsTruthy (rs : RunSettings) : Bool :=
  rs.model.isSome || rs.temperature.isSome || rs.topP.isSome || rs.topK.isSome ||
    rs.googleSearch || rs.enableSearchAsATool

/-- Model of `_build_metadata_table` from `converter.py` (lines 72-100). -/
def buildMetadataTable (loc : MetaLoc) (d : LogData) : String :=
  let rs := d.runSettings.getD {}
  if !(rsTruthy rs) then ""
  else
    let clean_model_name := ((rs.model.getD "N/A").splitOn "/").getLastD ""
    let table_rows := ["| " ++ loc.model ++ " | `" ++ clean_model_name ++ "` |"]
    let table_rows := table_rows ++ (match rs.temperature with
      | some v => ["| " ++ loc.temperature ++ " | `" ++ v ++ "` |"]
      | none => [])
    let table_rows := table_rows ++ (match rs.topP with
      | some v => ["| " ++ loc.top_p ++ " | `" ++ v ++ "` |"]
      | none => [])
    let table_rows := table_rows ++ (match rs.topK with
      | some v => ["| " ++ loc.top_k ++ " | `" ++ v ++ "` |"]
      | none => [])
    let search_text := if rs.googleSearch || rs.enableSearchAsATool then loc.search_enabled
                       else loc.search_disabled
    let table_rows := table_rows ++ ["| " ++ loc.web_search ++ " | " ++ search_text ++ " |"]
    let table_header := "| " ++ loc.header_parameter ++ " | " ++ loc.header_value ++
      " |\n| :--- | :--- |"
    table_header ++ "\n" ++ joinSep "\n" table_rows

/-- The exact reason string of the validity gate (line 322). -/
def invalidStructureMsg : String :=
  "JSON file contains no \x27systemInstruction\x27 and no valid dialog structure."

/-- Truthiness of `log_data.get('systemInstruction')` in the gate. -/
def sysGate (d : LogData) : Bool :=
  match d.systemInstruction with
  | none => false
  | some si => si.text.isSome || si.extraKeys

/-- Truthiness of `(log_data.get('chunkedPrompt', {}).get('chunks') or
log_data.get('history'))` in the gate (line 321) — note that
`pendingInputs` is not consulted here. -/
def dialogGate (d : LogData) : Bool :=
  (match d.chunkedPrompt.bind (fun cp => cp.chunks) with
   | some (_ :: _) => true
   | _ => false) ||
  (match d.history with
   | some (_ :: _) => true
   | _ => false)

/-- Model of `convert_llm_log_to_markdown` from `converter.py`.  The frontmatter
block (`_build_frontmatter`) depends on the source file mtime and the
external template string, so its rendered result is a parameter; the final
file write is modelled by the caller (`processOne`), so success carries
the assembled document text. -/
def convert_llm_log_to_markdown (env : Env) (ctx : Templates) (cfg : Config)
    (mloc : MetaLoc) (frontmatter : String) (mdStem : String) (d : LogData) :
    Except String String :=
  if !(sysGate d) && !(dialogGate d) then .error invalidStructureMsg
  else
    let final_title := get_clean_title mdStem
    let md_parts := (if cfg.enable_frontmatter then [frontmatter] else []) ++
      ["# " ++ final_title]
    let md_parts := if cfg.enable_metadata_table then
        (let t := buildMetadataTable mloc d
         if t != "" then md_parts ++ [t, "\n\n***"] else md_parts)
      else md_parts
    let conversation_md := buildConversationTurns env ctx cfg d
    let md_parts := if conversation_md != "" then md_parts ++ [conversation_md] else md_parts
    .ok (joinSep "\n\n" (md_parts.filter (fun s => s != "")))

/-- Presence of any of the three Drive keys directly on a chunk. -/
def chunkHasDriveKey (c : Chunk) : Bool :=
  c.driveImage.isSome || c.driveDocument.isSome || c.driveVideo.isSome

/-- Presence of any of the three Drive keys on a part. -/
def partHasDriveKey (p : LPart) : Bool :=
  p.driveImage.isSome || p.driveDocument.isSome || p.driveVideo.isSome

/-- Model of `_check_for_gdrive_links` from `converter.py` (lines 35-49): scans
`chunkedPrompt.chunks or history` — `pendingInputs` is never scanned. -/
def check_for_gdrive_links (d : LogData) : Bool :=
  let chunks := pyOrList (d.chunkedPrompt.getD {}).chunks (d.history.getD [])
  chunks.any (fun c => chunkHasDriveKey c || c.parts.any partHasDriveKey)

/-- A parsed JSON value as `_read_log_data` can return it: either a JSON
object (projected onto the modelled `LogData` fields) or any non-object
value (array, string, number, boolean, null), of which only the Python
truthiness matters to the driver before it crashes on `.get`. -/
inductive PyJson where
  | dict (d : LogData)
  | nondict (truthy : Bool)

/-- Python truthiness of a parse result (`if not log_data`). -/
def pyJsonTruthy : PyJson → Bool
  | .dict d => d.systemInstruction.isSome || d.chunkedPrompt.isSome || d.history.isSome ||
      d.runSettings.isSome || d.extraKeys
  | .nondict t => t

/-- Result of `_read_log_data`: either `(None, reason)` for unreadable or
invalid-JSON files, or the parsed value. -/
inductive ReadOutcome where
  | failed (msg : String)
  | parsed (v : PyJson)

/-- The per-file environmental facts the batch driver consumes: the file
name, the parse result, the date string derived from the mtime (or the
`XXXX-XX-XX` placeholder), whether the destination already exists,
whether the final write succeeds, and the rendered frontmatter. -/
structure FileSpec where
  name : String
  readOutcome : ReadOutcome
  dateStr : String
  destExists : Bool
  writeOk : Bool
  frontmatter : String := ""

/-- How one file ends up counted in the batch tally. -/
inductive Outcome where
  | success
  | skipped
  | failedFile

/-- Model of `filename[:-5] if filename.lower().endswith('.json') else filename`
(line 469), with ASCII lower-casing. -/
def stripJsonExt (s : String) : String :=
  let low := s.data.map Char.toLower
  if decide (5 ≤ low.length) && (low.drop (low.length - 5) == ".json".data) then
    String.mk (s.data.take (s.data.length - 5))
  else s

/-- Model of `Path(name).stem`: the name without its final dotted suffix (names
whose only dot is leading keep the name unchanged; the rare trailing-dot
case is approximated). -/
def pathStem (s : String) : String :=
  match (s.splitOn ".").dropLast with
  | [] => s
  | parts => if joinSep "." parts == "" then s else joinSep "." parts

/-- The destination filename computed on lines 459-474: the Drive scan
runs only when the indicator feature is on and fast mode is off. -/
def destName (cfg : Config) (fast : Bool) (f : FileSpec) (d : LogData) : String :=
  let has_gdrive_link := cfg.enable_gdrive_indicator && !fast && check_for_gdrive_links d
  let gdrive_indicator := if has_gdrive_link then cfg.gdrive_filename_indicator else ""
  cfg.filename_template f.dateStr gdrive_indicator (stripJsonExt f.name)

/-- The uncaught Python exception raised when `.get` is called on a parse
result that is not a JSON object (the loop body of `process_files` has no
handler for it). -/
def attributeErrorMsg : String := "AttributeError: .get called on a non-object JSON value"

/-- The body of the `for json_path in files_to_process` loop of
`process_files` (lines 443-491).  `Except.error` models an exception
escaping the loop; `Except.ok` is the tallied outcome for this file. -/
def processOne (env : Env) (ctx : Templates) (cfg : Config) (mloc : MetaLoc)
    (overwrite fast : Bool) (f : FileSpec) : Except String Outcome :=
  match f.readOutcome with
  | .failed _ => .ok .failedFile
  | .parsed v =>
    if !(pyJsonTruthy v) then .ok .failedFile
    else
      match v with
      | .nondict _ =>
        if cfg.enable_gdrive_indicator && !fast then .error attributeErrorMsg
        else if !overwrite && f.destExists then .ok .skipped
        else .error attributeErrorMsg
      | .dict d =>
        let newName := destName cfg fast f d
        if !overwrite && f.destExists then .ok .skipped
        else
          match convert_llm_log_to_markdown env ctx cfg mloc f.frontmatter (pathStem newName) d with
          | .error _ => .ok .failedFile
          | .ok _ => if f.writeOk then .ok .success else .ok .failedFile

/-- The tally loop of `process_files`, threading the three counters. -/
def processFilesGo (env : Env) (ctx : Templates) (cfg : Config) (mloc : MetaLoc)
    (overwrite fast : Bool) : List FileSpec → Nat × Nat × Nat → Except String (Nat × Nat × Nat)
  | [], acc => .ok acc
  | f :: rest, (s, k, e) =>
    match processOne env ctx cfg mloc overwrite fast f with
    | .error m => .error m
    | .ok .success => processFilesGo env ctx cfg mloc overwrite fast rest (s + 1, k, e)
    | .ok .skipped => processFilesGo env ctx cfg mloc overwrite fast rest (s, k + 1, e)
    | .ok .failedFile => processFilesGo env ctx cfg mloc overwrite fast rest (s, k, e + 1)

/-- Model of `process_files` from `converter.py`: returns the
`(success, skipped, error)` tally, or `Except.error` when an exception
escapes the batch loop. -/
def process_files (env : Env) (ctx : Templates) (cfg : Config) (mloc : MetaLoc)
    (overwrite fast : Bool) (files : List FileSpec) : Except String (Nat × Nat × Nat) :=
  processFilesGo env ctx cfg mloc overwrite fast files (0, 0, 0)

/-! Definitions supporting the theorem statements. -/

/-- The thought block a chunk contributes to the pending list, when any
(the thought branch of lines 138-143, as a per-chunk function). -/
def thoughtFrag (ctx : Templates) (role : String) (c : Chunk) : Option String :=
  if role == "model" && c.isThought then
    let thought_text := pyStrip (c.text.getD "")
    if thought_text != "" then some (ctx.thought_block_template (indentQuoted thought_text))
    else none
  else none

/-- A Drive attachment value that renders no fragment. -/
def attSilent : Option DriveAtt → Bool
  | none => true
  | some a =>
    match a.id with
    | some fid => fid == ""
    | none => true

/-- A YouTube value that renders no fragment. -/
def ytSilent : Option YouTubeVideo → Bool
  | none => true
  | some yv =>
    match yv.id with
    | some vid => vid == ""
    | none => true

/-- An inline-data value that renders no fragment. -/
def inlSilent : Option InlineData → Bool
  | none => true
  | some idt =>
    match idt.data with
    | some b =>
      b == "" ||
        (match idt.mimeType with
         | some m => m == ""
         | none => true)
    | none => true

/-- A part that produces no fragments at all. -/
def partSilent (p : LPart) : Bool :=
  p.text == none && inlSilent p.inlineData && attSilent p.driveImage &&
    attSilent p.driveDocument && attSilent p.driveVideo

/-- A chunk that contributes no content fragment and no pending thought to
a turn of role `r` (and, when grounding rendering could fire, carries no
grounding object). -/
def chunkSilent (cfg : Config) (r : String) (c : Chunk) : Bool :=
  if r == "model" && c.isThought then pyStrip (c.text.getD "") == ""
  else
    c.text == none && attSilent c.driveImage && attSilent c.driveDocument &&
      attSilent c.driveVideo && ytSilent c.youtubeVideo && inlSilent c.inlineData &&
      c.parts.all partSilent &&
      (!(r == "model") || !cfg.enable_grounding_metadata || c.grounding == none)

/-- Modelled from the spec and claim C7: a Drive attachment reference
anywhere in the document's chunk/part tree, i.e. in the chunk list, the
pending-inputs list, or the history list, directly on a chunk or inside
its parts. -/
def treeHasDrive (d : LogData) : Bool :=
  let cp := d.chunkedPrompt.getD {}
  let allChunks := cp.chunks.getD [] ++ cp.pendingInputs.getD [] ++ d.history.getD []
  allChunks.any (fun c => chunkHasDriveKey c || c.parts.any partHasDriveKey)

/-- One source line as the amended claim C6 describes it: a numbered link
whose visible text is the non-empty title when one is present, otherwise
the hostname of the URI (Python renders a missing hostname as `None`),
with a generic `Source` label when the URI itself is absent or empty. -/
def sourceLineSpec (hostname : String → Option String) (s : GSource) : String :=
  let visible :=
    if strTruthy s.uri then
      (if strTruthy s.title then s.title.getD "" else pyShowOpt (hostname (s.uri.getD "")))
    else "Source"
  "> " ++ refNumText s.referenceNumber ++ ". [" ++ visible ++ "](" ++ pyShowOpt s.uri ++ ")"

/-- The grounding block line list as the amended claim C6 describes it:
header line; the queries section when queries exist; a single blank
quoted separator exactly when both sections exist; the sources section
when sources exist, each source a numbered link per `sourceLineSpec`. -/
def groundingLinesSpec (hostname : String → Option String) (loc : GroundingLoc)
    (g : Grounding) : List String :=
  ["> [!info]- " ++ loc.spoiler_header] ++
  (if g.webSearchQueries = [] then []
   else ("> " ++ loc.queries_header) :: g.webSearchQueries.map (fun q => "> - `" ++ q ++ "`")) ++
  (if g.webSearchQueries ≠ [] ∧ g.groundingSources ≠ [] then [">"] else []) ++
  (if g.groundingSources = [] then []
   else ("> " ++ loc.sources_header) :: g.groundingSources.map (sourceLineSpec hostname))

/-! Concrete instances used by witnesses and counterexamples. -/

/-- A concrete environment: the image resolver yields a fixed fragment,
`unquote` is the identity (no percent-escapes in the inputs used), and
`hostname` is immaterial for the documents below. -/
def envC : Env :=
  { save_image := fun _ _ => "IMG", unquote := id, hostname := fun _ => none }

/-- The default English localisation of `config.py`, as template functions. -/
def ctxC : Templates :=
  { roleHeader := fun r =>
      if r == "user" then "## User Prompt 👤"
      else if r == "model" then "## Model Response 🤖"
      else "## " ++ r,
    thought_block_template := fun t => "> [!bug]- Model Thoughts 🧠\n> " ++ t,
    system_instruction_header := "System Instruction ⚙️",
    system_instruction_template := fun h t => "> [!note]- " ++ h ++ "\n> " ++ t }

/-- A configuration with every feature flag off. -/
def cfgC : Config := {}

/-- The configuration of the repository test suite: Drive indicator on,
indicator token `[A] `, and the claim C7 filename template
`{date} - {gdrive_indicator}{basename}.md`. -/
def cfgG : Config :=
  { enable_gdrive_indicator := true,
    gdrive_filename_indicator := "[A] ",
    filename_template := fun date ind base => date ++ " - " ++ ind ++ base ++ ".md" }

/-- Default metadata-table labels. -/
def metaLocC : MetaLoc := {}

/-- Default grounding labels. -/
def locC : GroundingLoc := {}

/-- A concrete hostname resolver. -/
def hostC : String → Option String := fun _ => some "host.example"

/-- C2: a document whose only content is a non-empty pending-inputs list. -/
def docPend : LogData :=
  { chunkedPrompt := some { pendingInputs := some [{ role := some "user", text := some "hi" }] } }

/-- C3: a roleless chunk ahead of the first user chunk, with a system
instruction present. -/
def docC3 : LogData :=
  { systemInstruction := some { text := some "S" },
    chunkedPrompt := some { chunks := some [{}, { role := some "user", text := some "hi" }] } }

/-- C1: a maximal model run consisting of one chunk with no content. -/
def docModelEmpty : LogData :=
  { chunkedPrompt := some { chunks := some [{ role := some "model" }] } }

/-- C4: a user turn whose only fragment is whitespace. -/
def docWs : LogData :=
  { chunkedPrompt := some { chunks := some [{ role := some "user", text := some "   " }] } }

/-- C5: a part carrying both a text field and an inline image. -/
def pBoth : LPart :=
  { text := some "a", inlineData := some { data := some "zz", mimeType := some "image/png" },
    driveImage := none, driveDocument := none, driveVideo := none }

/-- C5: a user chunk whose only content is `pBoth`. -/
def docBoth : LogData :=
  { chunkedPrompt := some { chunks := some [{ role := some "user", parts := [pBoth] }] } }

/-- C6: a source with a title but no URI. -/
def gNoUri : Grounding :=
  { webSearchQueries := [],
    groundingSources := [{ uri := none, title := some "T", referenceNumber := some 1 }] }

/-- C7: the Drive reference sits only in the pending-inputs list, while
the chunk list is non-empty and Drive-free. -/
def docC7 : LogData :=
  { chunkedPrompt := some
      { chunks := some [{ role := some "user", text := some "hi" }],
        pendingInputs := some [{ driveImage := some { id := some "X", title := none } }] } }

/-- C7: the environmental facts of the counterexample file. -/
def fileC7 : FileSpec :=
  { name := "log", readOutcome := .parsed (.dict docC7), dateStr := "2025-08-15",
    destExists := false, writeOk := true }

/-- C9: a file whose whole content is the JSON array `[1, 2]`. -/
def fileArr : FileSpec :=
  { name := "bad.json", readOutcome := .parsed (.nondict true), dateStr := "2025-08-15",
    destExists := false, writeOk := true }

/-- A well-formed single-turn document. -/
def docGood : LogData :=
  { chunkedPrompt := some { chunks := some [{ role := some "user", text := some "hi" }] } }

/-- C9: a healthy file queued after the crashing one. -/
def fileGood : FileSpec :=
  { name := "good.json", readOutcome := .parsed (.dict docGood), dateStr := "2025-08-15",
    destExists := false, writeOk := true }

/-- C10: a file whose whole content is the JSON number `5`. -/
def fileNum : FileSpec :=
  { name := "n.json", readOutcome := .parsed (.nondict true), dateStr := "2025-08-15",
    destExists := false, writeOk := true }

/-- C10 witness: a file whose destination already exists. -/
def fileSkip : FileSpec :=
  { name := "skip.json", readOutcome := .parsed (.dict docGood), dateStr := "2025-08-15",
    destExists := true, writeOk := true }

/-- C10 witness: an unreadable file. -/
def fileBad : FileSpec :=
  { name := "bad2.json", readOutcome := .failed "Invalid JSON format.", dateStr := "2025-08-15",
    destExists := false, writeOk := true }

/-- C1: a model chunk marked as a thought. -/
def cThought : Chunk :=
  { role := some "model", isThought := true, text := some "internal note" }

/-- C1: an ordinary model chunk. -/
def cAnswer : Chunk := { role := some "model", text := some "final answer" }

/-- C1: the end-to-end scenario document of the spec. -/
def docThought : LogData :=
  { chunkedPrompt := some { chunks := some [cThought, cAnswer] } }

/-- C3: a document whose chunk at index 0 is the user chunk. -/
def docSys : LogData :=
  { systemInstruction := some { text := some "S" },
    chunkedPrompt := some { chunks := some [{ role := some "user", text := some "hi" }] } }

/-- C6: a grounding object with both queries and sources. -/
def gBoth : Grounding :=
  { webSearchQueries := ["q1"],
    groundingSources :=
      [{ uri := some "https://a.example/x", title := some "A", referenceNumber := some 1 },
       { uri := some "https://b.example/y", title := none, referenceNumber := some 2 }] }

/-- C7 witness: the document of the repository test suite (one user chunk
with a Drive image). -/
def docDrive : LogData :=
  { chunkedPrompt := some
      { chunks := some [{ role := some "user", driveImage := some { id := some "123", title := none } }] } }

/-- C7 witness: the environmental facts of the test-suite file. -/
def fDrive : FileSpec :=
  { name := "test_log_with_gdrive", readOutcome := .parsed (.dict docDrive),
    dateStr := "2025-08-15", destExists := false, writeOk := true }

/-! General lemmas. -/

theorem hasSub_nil (hay : List Char) : hasSub [] hay = true := by
  induction hay with
  | nil => rfl
  | cons a t ih => simp [hasSub, ih]

theorem dedupAppend_nil (content : List String) : dedupAppend content [] = content := by
  cases content <;> simp [dedupAppend, hasSub_nil]

/-! C8: the clean-title extraction. -/

/-- C8 (amended): for every string of the form `YYYY-MM-DD - X` the
extraction returns `X` truncated at its first newline (so exactly `X`
whenever `X` contains no newline); every non-matching string is returned
unchanged; and applying the extraction twice equals applying it once
exactly when the first result does not itself carry a date prefix (the
extraction is not idempotent in general, see the counterexample). -/
theorem C8_clean_title_extraction :
    (∀ (a b c d e f g h : Char) (X : String),
        a.isDigit = true → b.isDigit = true → c.isDigit = true → d.isDigit = true →
        e.isDigit = true → f.isDigit = true → g.isDigit = true → h.isDigit = true →
        get_clean_title (String.mk ([a, b, c, d, '-', e, f, '-', g, h, ' ', '-', ' '] ++ X.data)) =
          String.mk (X.data.takeWhile (fun ch => ch != '\n'))) ∧
    (∀ s : String, dateRest s.data = none → get_clean_title s = s) ∧
    (∀ s : String, dateRest (get_clean_title s).data = none →
        get_clean_title (get_clean_title s) = get_clean_title s) := by
  have h2 : ∀ s : String, dateRest s.data = none → get_clean_title s = s := by
    intro s h
    unfold get_clean_title
    rw [h]
  refine ⟨?_, h2, fun s h => h2 _ h⟩
  intro a b c d e f g h X ha hb hc hd he hf hg hh
  unfold get_clean_title dateRest
  simp [ha, hb, hc, hd, he, hf, hg, hh]

/-- Witness for C8 at a concrete title. -/
theorem C8_witness :
    get_clean_title
        (String.mk (['2', '0', '2', '5', '-', '0', '8', '-', '1', '5', ' ', '-', ' '] ++ "My Log".data)) =
      String.mk ("My Log".data.takeWhile (fun ch => ch != '\n')) :=
  C8_clean_title_extraction.1 '2' '0' '2' '5' '0' '8' '1' '5' "My Log" (by decide) (by decide)
    (by decide) (by decide) (by decide) (by decide) (by decide) (by decide)

/-- C8 counterexample: the extraction is not idempotent — a title whose
remainder itself starts with a date prefix loses a second prefix on the
second application. -/
theorem C8_cex :
    get_clean_title "2023-01-01 - 2024-02-02 - x" = "2024-02-02 - x" ∧
    get_clean_title (get_clean_title "2023-01-01 - 2024-02-02 - x") = "x" ∧
    get_clean_title (get_clean_title "2023-01-01 - 2024-02-02 - x") ≠
      get_clean_title "2023-01-01 - 2024-02-02 - x" := by
  refine ⟨rfl, rfl, ?_⟩
  decide

/-! C6: the grounding formatter. -/

theorem sourceLine_eq_spec (hostname : String → Option String) (s : GSource) :
    sourceLine hostname s = sourceLineSpec hostname s := by
  rcases s with ⟨uri, title, num⟩
  cases uri <;> cases title <;>
    simp [sourceLine, sourceLineSpec, sourceVisible, strTruthy, pyShowOpt]

/-- C6 (amended): for every grounding object with a non-empty source list
the rendered block is exactly the header line, the queries section when
queries exist, a single blank quoted separator exactly when both sections
exist, and the numbered source list, where each visible source text is
the non-empty title when present, otherwise the hostname of the URI, and
a generic `Source` label when the URI is absent or empty. -/
theorem C6_grounding_sections (hostname : String → Option String) (loc : GroundingLoc)
    (g : Grounding) (hs : g.groundingSources ≠ []) :
    format_grounding_data hostname loc g = joinSep "\n" (groundingLinesSpec hostname loc g) := by
  have hmap : g.groundingSources.map (sourceLine hostname) =
      g.groundingSources.map (sourceLineSpec hostname) :=
    List.map_congr_left (fun s _ => sourceLine_eq_spec hostname s)
  unfold format_grounding_data groundingLinesSpec
  by_cases hq : g.webSearchQueries = [] <;> simp [hq, hs, hmap]

/-- Witness for C6 at a grounding object with both sections. -/
theorem C6_witness :
    gBoth.groundingSources ≠ [] ∧
    format_grounding_data hostC locC gBoth = joinSep "\n" (groundingLinesSpec hostC locC gBoth) :=
  ⟨by decide, C6_grounding_sections hostC locC gBoth (by decide)⟩

/-- C6 counterexample: a source with a title but no URI is rendered with
the generic `Source` label, not with its title as the claim states. -/
theorem C6_cex :
    format_grounding_data hostC locC gNoUri =
      "> [!info]- Sources Used\n> **Sources:**\n> 1. [Source](None)" ∧
    hasSub "[T]".data (format_grounding_data hostC locC gNoUri).data = false := by
  exact ⟨rfl, by decide⟩

/-! C7: the Drive-indicator in the destination filename. -/

/-- C7 (amended): with the indicator feature enabled and the claim
filename template, a document in which the scanned chunk list
(`chunkedPrompt.chunks` when non-empty, else `history`, including each
chunk's parts) carries a Drive reference gets the indicator token
immediately before the base name when fast mode is off, and the same name
without the token when fast mode is on. -/
theorem C7_gdrive_indicator (cfg : Config) (f : FileSpec) (d : LogData)
    (hen : cfg.enable_gdrive_indicator = true)
    (htm : cfg.filename_template = fun date ind base => date ++ " - " ++ ind ++ base ++ ".md")
    (hscan : check_for_gdrive_links d = true) :
    destName cfg false f d =
      f.dateStr ++ " - " ++ cfg.gdrive_filename_indicator ++ stripJsonExt f.name ++ ".md" ∧
    destName cfg true f d = f.dateStr ++ " - " ++ stripJsonExt f.name ++ ".md" := by
  unfold destName
  rw [htm]
  simp [hen, hscan]

/-- Witness for C7 at the repository test-suite input. -/
theorem C7_witness :
    destName cfgG false fDrive docDrive = "2025-08-15 - [A] test_log_with_gdrive.md" ∧
    destName cfgG true fDrive docDrive = "2025-08-15 - test_log_with_gdrive.md" := by
  have h := C7_gdrive_indicator cfgG fDrive docDrive rfl rfl (by decide)
  exact ⟨h.1.trans (by decide), h.2.trans (by decide)⟩

/-- C7 counterexample: a Drive reference that sits only in the
pending-inputs list is in the chunk/part tree of the document, but the
scan never sees it, so the destination name carries no token even with
the feature on and fast mode off. -/
theorem C7_cex :
    treeHasDrive docC7 = true ∧
    check_for_gdrive_links docC7 = false ∧
    destName cfgG false fileC7 docC7 = "2025-08-15 - log.md" ∧
    hasSub "[A] ".data (destName cfgG false fileC7 docC7).data = false := by
  refine ⟨by decide, by decide, rfl, by decide⟩

/-! C2: the validity gate versus the pending-inputs conversation source. -/

/-- C2 (code bug): a document whose only content is a non-empty
pending-inputs list is rejected by the gate with the Invalid Structure
reason, even though the turn builder itself renders that very document
and the pending-inputs list is a non-empty conversation source. -/
theorem C2_pending_inputs_gate :
    convert_llm_log_to_markdown envC ctxC cfgC metaLocC "" "t" docPend = .error invalidStructureMsg ∧
    buildConversationTurns envC ctxC cfgC docPend = "## User Prompt 👤\n\nhi" ∧
    chunkSource docPend ≠ [] := by
  refine ⟨rfl, ?_, by decide⟩
  simp [buildConversationTurns, buildTurnsAux, renderRun, runContent, processChunk, chunkSource,
    sysInstrText, docPend, envC, ctxC, cfgC, pyOrList, pyStrip, spoilerBlock, joinSep,
    chunkRoleEq, strTruthy]
  decide

/-! C9 and C10: the batch driver. -/

/-- C9 (code bug): a file whose content parses to a truthy non-object
JSON value (here the array `[1, 2]`) raises an uncaught `AttributeError`
out of `process_files`: the batch returns no tally and the following file
is never processed. -/
theorem C9_batch_crash :
    process_files envC ctxC cfgG metaLocC true false [fileArr, fileGood] =
      .error attributeErrorMsg := rfl

theorem processFilesGo_sum (env : Env) (ctx : Templates) (cfg : Config) (mloc : MetaLoc)
    (overwrite fast : Bool) :
    ∀ (files : List FileSpec) (s0 k0 e0 s k e : Nat),
      processFilesGo env ctx cfg mloc overwrite fast files (s0, k0, e0) = .ok (s, k, e) →
      s + k + e = s0 + k0 + e0 + files.length := by
  intro files
  induction files with
  | nil =>
    intro s0 k0 e0 s k e h
    simp only [processFilesGo, Except.ok.injEq, Prod.mk.injEq] at h
    obtain ⟨h1, h2, h3⟩ := h
    simp only [List.length_nil]
    omega
  | cons f rest ih =>
    intro s0 k0 e0 s k e h
    simp only [processFilesGo] at h
    cases hp : processOne env ctx cfg mloc overwrite fast f with
    | error m => rw [hp] at h; exact absurd h (by simp)
    | ok o =>
      rw [hp] at h
      cases o with
      | success => have := ih (s0 + 1) k0 e0 s k e h; simp [List.length_cons]; omega
      | skipped => have := ih s0 (k0 + 1) e0 s k e h; simp [List.length_cons]; omega
      | failedFile => have := ih s0 k0 (e0 + 1) s k e h; simp [List.length_cons]; omega

/-- C10 (amended): whenever the batch call returns a tally — which it
does unless a file parses to a truthy non-object JSON value and escapes
as an exception — every input file contributes to exactly one of the
three counters, so their sum equals the number of input files. -/
theorem C10_tally_sum (env : Env) (ctx : Templates) (cfg : Config) (mloc : MetaLoc)
    (overwrite fast : Bool) (files : List FileSpec) (s k e : Nat)
    (h : process_files env ctx cfg mloc overwrite fast files = .ok (s, k, e)) :
    s + k + e = files.length := by
  have := processFilesGo_sum env ctx cfg mloc overwrite fast files 0 0 0 s k e h
  omega

/-- Witness for C10 on a batch with one success, one skip and one
unreadable file. -/
theorem C10_witness :
    (1 : Nat) + 1 + 1 = ([fileGood, fileSkip, fileBad] : List FileSpec).length :=
  C10_tally_sum envC ctxC cfgC metaLocC false false [fileGood, fileSkip, fileBad] 1 1 1 rfl

/-- C10 counterexample: on a file parsing to the JSON number `5` the
batch driver returns no tally at all — the claim fails because the call
raises instead of returning three counters. -/
theorem C10_cex :
    process_files envC ctxC cfgC metaLocC true false [fileNum] = .error attributeErrorMsg ∧
    ∀ t : Nat × Nat × Nat,
      process_files envC ctxC cfgC metaLocC true false [fileNum] ≠ .ok t := by
  refine ⟨rfl, ?_⟩
  intro t h
  rw [show process_files envC ctxC cfgC metaLocC true false [fileNum] = .error attributeErrorMsg
    from rfl] at h
  exact Except.noConfusion h

/-! Lemmas about the turn builder. -/

theorem partsFold_pending (env : Env) (parts : List LPart) :
    ∀ s : TurnState, (parts.foldl (partStep env) s).pending_thoughts = s.pending_thoughts := by
  induction parts with
  | nil => intro s; rfl
  | cons p ps ih => intro s; exact ih (partStep env s p)

theorem partsFold_grounding (env : Env) (parts : List LPart) :
    ∀ s : TurnState, (parts.foldl (partStep env) s).grounding_data = s.grounding_data := by
  induction parts with
  | nil => intro s; rfl
  | cons p ps ih => intro s; exact ih (partStep env s p)

theorem dedupAppend_exists (content frags : List String) :
    ∃ L, dedupAppend content frags = content ++ L := by
  unfold dedupAppend
  split
  · exact ⟨[], by simp⟩
  · exact ⟨frags, rfl⟩

theorem exists_app_trans {x y z : List String} (h1 : ∃ L, y = x ++ L) (h2 : ∃ L, z = y ++ L) :
    ∃ L, z = x ++ L := by
  obtain ⟨a, ha⟩ := h1
  obtain ⟨b, hb⟩ := h2
  exact ⟨a ++ b, by rw [hb, ha, List.append_assoc]⟩

theorem exists_app_five (x a b c d e : List String) :
    ∃ L, x ++ a ++ b ++ c ++ d ++ e = x ++ L :=
  ⟨a ++ b ++ c ++ d ++ e, by simp [List.append_assoc]⟩

theorem exists_app_six (x a b c d e f : List String) :
    ∃ L, x ++ a ++ b ++ c ++ d ++ e ++ f = x ++ L :=
  ⟨a ++ b ++ c ++ d ++ e ++ f, by simp [List.append_assoc]⟩

theorem partsFold_content (env : Env) (parts : List LPart) :
    ∀ s : TurnState, ∃ L, (parts.foldl (partStep env) s).turn_content = s.turn_content ++ L := by
  induction parts with
  | nil => intro s; exact ⟨[], by simp⟩
  | cons p ps ih =>
    intro s
    exact exists_app_trans (dedupAppend_exists s.turn_content (partFragments env p))
      (ih (partStep env s p))

theorem processChunk_pending (env : Env) (ctx : Templates) (r : String) (st : TurnState)
    (c : Chunk) :
    (processChunk env ctx r st c).pending_thoughts =
      st.pending_thoughts ++ (thoughtFrag ctx r c).toList := by
  unfold processChunk thoughtFrag
  by_cases h : (r == "model" && c.isThought) = true
  · simp only [h, if_true]
    by_cases h2 : (pyStrip (c.text.getD "") != "") = true
    · simp [h2]
    · simp [h2]
  · simp only [Bool.not_eq_true] at h
    simp only [h, if_false, Bool.false_eq_true]
    rw [partsFold_pending]
    cases hg : c.grounding.isSome <;> cases htx : c.text <;> simp [hg, htx]

theorem processChunk_content (env : Env) (ctx : Templates) (r : String) (st : TurnState)
    (c : Chunk) :
    ∃ L, (processChunk env ctx r st c).turn_content = st.turn_content ++ L := by
  unfold processChunk
  by_cases h : (r == "model" && c.isThought) = true
  · simp only [h, if_true]
    by_cases h2 : (pyStrip (c.text.getD "") != "") = true
    · simp [h2]
    · simp [h2]
  · simp only [Bool.not_eq_true] at h
    simp only [h, if_false, Bool.false_eq_true]
    cases hg : c.grounding.isSome <;> cases htx : c.text <;> simp only [hg, htx] <;>
      refine exists_app_trans ?_ (partsFold_content env c.parts _) <;>
      first
        | exact exists_app_five st.turn_content _ _ _ _ _
        | exact exists_app_six st.turn_content _ _ _ _ _ _

theorem runFold_pending (env : Env) (ctx : Templates) (r : String) (run : List Chunk) :
    ∀ st : TurnState, (run.foldl (processChunk env ctx r) st).pending_thoughts =
      st.pending_thoughts ++ run.filterMap (thoughtFrag ctx r) := by
  induction run with
  | nil => intro st; simp
  | cons c cs ih =>
    intro st
    have h1 := ih (processChunk env ctx r st c)
    have h2 := processChunk_pending env ctx r st c
    calc ((c :: cs).foldl (processChunk env ctx r) st).pending_thoughts
        = (processChunk env ctx r st c).pending_thoughts ++ cs.filterMap (thoughtFrag ctx r) := h1
      _ = st.pending_thoughts ++ (thoughtFrag ctx r c).toList ++ cs.filterMap (thoughtFrag ctx r) := by
          rw [h2]
      _ = st.pending_thoughts ++ (c :: cs).filterMap (thoughtFrag ctx r) := by
          cases hf : thoughtFrag ctx r c <;> simp [List.filterMap_cons, hf]

theorem runFold_content (env : Env) (ctx : Templates) (r : String) (run : List Chunk) :
    ∀ st : TurnState, ∃ L, (run.foldl (processChunk env ctx r) st).turn_content =
      st.turn_content ++ L := by
  induction run with
  | nil => intro st; exact ⟨[], by simp⟩
  | cons c cs ih =>
    intro st
    exact exists_app_trans (processChunk_content env ctx r st c)
      (ih (processChunk env ctx r st c))

theorem runContent_model (env : Env) (ctx : Templates) (cfg : Config) (sys : String)
    (b : Bool) (run : List Chunk) :
    ∃ ordinary, runContent env ctx cfg sys b "model" run =
      run.filterMap (thoughtFrag ctx "model") ++ ordinary := by
  unfold runContent
  simp only [show (("model" : String) == "user") = false from rfl, Bool.and_false,
    Bool.false_and, if_false, show (("model" : String) == "model") = true from rfl, if_true,
    Bool.false_eq_true]
  have hp := runFold_pending env ctx "model" run
    { turn_content := [], pending_thoughts := [], grounding_data := none }
  obtain ⟨L, hL⟩ := runFold_content env ctx "model" run
    { turn_content := [], pending_thoughts := [], grounding_data := none }
  cases hgd : (run.foldl (processChunk env ctx "model")
      { turn_content := [], pending_thoughts := [], grounding_data := none }).grounding_data with
  | none =>
    refine ⟨L, ?_⟩
    simp [hp, hL]
  | some g =>
    by_cases hc : (groundingTruthy g && cfg.enable_grounding_metadata) = true
    · exact ⟨L ++ [format_grounding_data env.hostname ctx.grounding g], by simp [hc, hp, hL]⟩
    · simp only [Bool.not_eq_true] at hc
      exact ⟨L, by simp [hc, hp, hL]⟩

theorem renderRun_model_first (env : Env) (ctx : Templates) (cfg : Config) (sys : String)
    (b : Bool) (run : List Chunk) :
    renderRun env ctx cfg sys b "model" run = renderRun env ctx cfg sys false "model" run := by
  unfold renderRun runContent
  simp only [show (("model" : String) == "user") = false from rfl, Bool.and_false, Bool.false_and]

theorem buildTurnsAux_nil (env : Env) (ctx : Templates) (cfg : Config) (sys : String)
    (first : Bool) : buildTurnsAux env ctx cfg sys first [] = [] := by
  simp [buildTurnsAux]

theorem buildTurnsAux_cons (env : Env) (ctx : Templates) (cfg : Config) (sys : String)
    (first : Bool) (c : Chunk) (rest : List Chunk) :
    buildTurnsAux env ctx cfg sys first (c :: rest) =
      if strTruthy c.role then
        (renderRun env ctx cfg sys first (c.role.getD "")
            (c :: rest.takeWhile (chunkRoleEq c))).toList ++
          buildTurnsAux env ctx cfg sys false (rest.dropWhile (chunkRoleEq c))
      else buildTurnsAux env ctx cfg sys false rest := by
  simp only [buildTurnsAux]

theorem takeWhile_append_all {p : Chunk → Bool} (l1 l2 : List Chunk)
    (h : ∀ x ∈ l1, p x = true) : (l1 ++ l2).takeWhile p = l1 ++ l2.takeWhile p := by
  have ht : l1.takeWhile p = l1 := List.takeWhile_eq_self_iff.mpr h
  rw [List.takeWhile_append, ht, if_pos rfl]

theorem dropWhile_append_all {p : Chunk → Bool} (l1 l2 : List Chunk)
    (h : ∀ x ∈ l1, p x = true) : (l1 ++ l2).dropWhile p = l2.dropWhile p := by
  have hd : l1.dropWhile p = [] := List.dropWhile_eq_nil_iff.mpr h
  rw [List.dropWhile_append, hd]
  simp

theorem takeWhile_append_stop {p : Chunk → Bool} (l1 l2 : List Chunk)
    (h : l1.takeWhile p ≠ l1) : (l1 ++ l2).takeWhile p = l1.takeWhile p := by
  rw [List.takeWhile_append, if_neg]
  intro hlen
  exact h ((List.takeWhile_prefix p).eq_of_length hlen)

theorem dropWhile_append_stop {p : Chunk → Bool} (l1 l2 : List Chunk)
    (h : l1.dropWhile p ≠ []) : (l1 ++ l2).dropWhile p = l1.dropWhile p ++ l2 := by
  rw [List.dropWhile_append, if_neg]
  simpa using h

theorem getLast?_of_suffix {l d : List Chunk} (h : d <:+ l) (hd : d ≠ []) :
    l.getLast? = d.getLast? := by
  obtain ⟨q, rfl⟩ := h
  rw [List.getLast?_append]
  cases hgl : d.getLast? with
  | none => exact absurd (List.getLast?_eq_none_iff.mp hgl) hd
  | some x => rfl

/-- The scan of `_build_conversation_turns` emits, for a maximal run of
`model`-role chunks, exactly the block rendered from that run, spliced
between the blocks of the surrounding chunks. -/
theorem modelRun_decomp (env : Env) (ctx : Templates) (cfg : Config) (sys : String) :
    ∀ (n : Nat) (pre run post : List Chunk) (first : Bool),
      pre.length = n → run ≠ [] →
      (∀ c ∈ run, c.role = some "model") →
      (∀ c, pre.getLast? = some c → c.role ≠ some "model") →
      (∀ c, post.head? = some c → c.role ≠ some "model") →
      buildTurnsAux env ctx cfg sys first (pre ++ run ++ post) =
        buildTurnsAux env ctx cfg sys first pre ++
          (renderRun env ctx cfg sys false "model" run).toList ++
          buildTurnsAux env ctx cfg sys false post := by
  intro n
  induction n using Nat.strong_induction_on with
  | _ n ih =>
  intro pre run post first hlen hne hrun hpre hpost
  cases pre with
  | nil =>
    obtain ⟨c, cs, rfl⟩ := List.exists_cons_of_ne_nil hne
    have hc : c.role = some "model" := hrun c (by simp)
    have hcs : ∀ x ∈ cs, chunkRoleEq c x = true := by
      intro x hx
      have hx' := hrun x (by simp [hx])
      simp [chunkRoleEq, hx', hc]
    have hstop : ∀ q, post.head? = some q → chunkRoleEq c q = false := by
      intro q hq
      have hq' : q.role ≠ some "model" := hpost q hq
      simp only [chunkRoleEq, hc]
      exact beq_eq_false_iff_ne.mpr hq'
    have htk : post.takeWhile (chunkRoleEq c) = [] := by
      cases post with
      | nil => rfl
      | cons q qs => exact List.takeWhile_cons_of_neg (by simp [hstop q rfl])
    have hdp : post.dropWhile (chunkRoleEq c) = post := by
      cases post with
      | nil => rfl
      | cons q qs => exact List.dropWhile_cons_of_neg (by simp [hstop q rfl])
    have hstr : strTruthy c.role = true := by rw [hc]; rfl
    simp only [List.nil_append, List.cons_append]
    rw [buildTurnsAux_cons, if_pos hstr]
    rw [takeWhile_append_all cs post hcs, htk, dropWhile_append_all cs post hcs, hdp]
    rw [buildTurnsAux_nil]
    have hrole : c.role.getD "" = "model" := by rw [hc]; rfl
    rw [hrole, renderRun_model_first]
    simp
  | cons p ps =>
    have hlen' : ps.length + 1 = n := by simpa using hlen
    by_cases hp : strTruthy p.role = true
    · have hsplit : (p :: ps) ++ run ++ post = p :: (ps ++ (run ++ post)) := by simp
      rw [hsplit, buildTurnsAux_cons env ctx cfg sys first p (ps ++ (run ++ post)), if_pos hp,
        buildTurnsAux_cons env ctx cfg sys first p ps, if_pos hp]
      by_cases hall : ∀ x ∈ ps, chunkRoleEq p x = true
      · have hpne : p.role ≠ some "model" := by
          intro hpm
          have hne' : (p :: ps) ≠ ([] : List Chunk) := by simp
          have hlast : (p :: ps).getLast? = some ((p :: ps).getLast hne') :=
            List.getLast?_eq_getLast _ hne'
          have hrole := hpre _ hlast
          rcases List.mem_cons.mp (List.getLast_mem hne') with h1 | h1
          · exact hrole (by rw [h1, hpm])
          · have h2 := hall _ h1
            simp only [chunkRoleEq] at h2
            have h3 : ((p :: ps).getLast hne').role = p.role := by
              exact eq_of_beq h2
            exact hrole (by rw [h3, hpm])
        obtain ⟨c, cs, rfl⟩ := List.exists_cons_of_ne_nil hne
        have hc : c.role = some "model" := hrun c (by simp)
        have hcstop : chunkRoleEq p c = false := by
          simp only [chunkRoleEq, hc]
          exact beq_eq_false_iff_ne.mpr (Ne.symm hpne)
        rw [takeWhile_append_all ps ((c :: cs) ++ post) hall,
          dropWhile_append_all ps ((c :: cs) ++ post) hall]
        rw [show ((c :: cs) ++ post : List Chunk) = c :: (cs ++ post) by simp]
        rw [List.takeWhile_cons_of_neg (by simp [hcstop]),
          List.dropWhile_cons_of_neg (by simp [hcstop])]
        have hrec := ih 0 (by omega) [] (c :: cs) post false rfl hne hrun (by simp) hpost
        simp only [List.nil_append] at hrec
        rw [show (c :: (cs ++ post) : List Chunk) = (c :: cs) ++ post by simp, hrec,
          buildTurnsAux_nil]
        rw [List.takeWhile_eq_self_iff.mpr hall, List.dropWhile_eq_nil_iff.mpr hall,
          buildTurnsAux_nil]
        simp
      · have ht : ps.takeWhile (chunkRoleEq p) ≠ ps :=
          fun he => hall (List.takeWhile_eq_self_iff.mp he)
        have hd : ps.dropWhile (chunkRoleEq p) ≠ [] :=
          fun he => hall (List.dropWhile_eq_nil_iff.mp he)
        rw [takeWhile_append_stop ps (run ++ post) ht, dropWhile_append_stop ps (run ++ post) hd]
        have hdlen : (ps.dropWhile (chunkRoleEq p)).length < n := by
          have := List.Sublist.length_le
            (List.dropWhile_sublist (chunkRoleEq p) :
              (ps.dropWhile (chunkRoleEq p)).Sublist ps)
          omega
        have hdpre : ∀ c', (ps.dropWhile (chunkRoleEq p)).getLast? = some c' →
            c'.role ≠ some "model" := by
          intro c' hc'
          apply hpre
          have hpsne : ps ≠ [] := by
            intro he
            subst he
            exact hd rfl
          have h1 : ps.getLast? = (ps.dropWhile (chunkRoleEq p)).getLast? :=
            getLast?_of_suffix (List.dropWhile_suffix _) hd
          have h2 : (p :: ps).getLast? = ps.getLast? := by
            cases ps with
            | nil => exact absurd rfl hpsne
            | cons q qs => exact List.getLast?_cons_cons
          rw [h2, h1]
          exact hc'
        have hrec := ih _ hdlen (ps.dropWhile (chunkRoleEq p)) run post false rfl hne hrun
          hdpre hpost
        rw [show (ps.dropWhile (chunkRoleEq p) ++ (run ++ post) : List Chunk) =
          ps.dropWhile (chunkRoleEq p) ++ run ++ post by simp, hrec]
        simp
    · have hsplit : (p :: ps) ++ run ++ post = p :: (ps ++ (run ++ post)) := by simp
      rw [hsplit, buildTurnsAux_cons env ctx cfg sys first p (ps ++ (run ++ post)),
        if_neg (by simp [hp]), buildTurnsAux_cons env ctx cfg sys first p ps,
        if_neg (by simp [hp])]
      have hpsne_pre : ∀ c, ps.getLast? = some c → c.role ≠ some "model" := by
        intro c hc
        apply hpre
        cases ps with
        | nil => simp at hc
        | cons q qs => rw [List.getLast?_cons_cons]; exact hc
      have hrec := ih ps.length (by omega) ps run post false rfl hne hrun hpsne_pre hpost
      rw [show (ps ++ (run ++ post) : List Chunk) = ps ++ run ++ post by simp, hrec]

/-! C1: one turn per maximal model run, thoughts ahead of content. -/

/-- C1 (amended): for every chunk list containing a maximal run of
consecutive chunks of role `model`, the Turn Builder renders at most one
turn for that run — the single block obtained from the run, spliced
between the output of the surrounding chunks — and the run's content list
places every non-empty thought block (in original order) ahead of all
ordinary content fragments.  ("Exactly one" fails when a run collects no
content at all, in which case no turn is emitted; see the
counterexample.) -/
theorem C1_model_run (env : Env) (ctx : Templates) (cfg : Config) (sys : String)
    (pre run post : List Chunk) (first : Bool)
    (h1 : run ≠ []) (h2 : ∀ c ∈ run, c.role = some "model")
    (h3 : ∀ c, pre.getLast? = some c → c.role ≠ some "model")
    (h4 : ∀ c, post.head? = some c → c.role ≠ some "model") :
    buildTurnsAux env ctx cfg sys first (pre ++ run ++ post) =
      buildTurnsAux env ctx cfg sys first pre ++
        (renderRun env ctx cfg sys false "model" run).toList ++
        buildTurnsAux env ctx cfg sys false post ∧
    (renderRun env ctx cfg sys false "model" run).toList.length ≤ 1 ∧
    ∃ ordinary, runContent env ctx cfg sys false "model" run =
      run.filterMap (thoughtFrag ctx "model") ++ ordinary := by
  refine ⟨modelRun_decomp env ctx cfg sys pre.length pre run post first rfl h1 h2 h3 h4, ?_,
    runContent_model env ctx cfg sys false run⟩
  cases renderRun env ctx cfg sys false "model" run <;> simp

/-- Witness for C1 at the spec scenario: a thought chunk followed by an
ordinary model chunk yields one Model turn whose content starts with the
rendered thought block and then the answer text. -/
theorem C1_witness :
    (buildTurnsAux envC ctxC cfgC "" true ([] ++ [cThought, cAnswer] ++ []) =
        buildTurnsAux envC ctxC cfgC "" true [] ++
          (renderRun envC ctxC cfgC "" false "model" [cThought, cAnswer]).toList ++
          buildTurnsAux envC ctxC cfgC "" false [] ∧
      (renderRun envC ctxC cfgC "" false "model" [cThought, cAnswer]).toList.length ≤ 1 ∧
      ∃ ordinary, runContent envC ctxC cfgC "" false "model" [cThought, cAnswer] =
        [cThought, cAnswer].filterMap (thoughtFrag ctxC "model") ++ ordinary) ∧
    buildConversationTurns envC ctxC cfgC docThought =
      "## Model Response 🤖\n\n> [!bug]- Model Thoughts 🧠\n> internal note\n\nfinal answer" := by
  constructor
  · exact C1_model_run envC ctxC cfgC "" [] [cThought, cAnswer] [] true (by simp) (by decide)
      (by simp) (by simp)
  · simp [buildConversationTurns, buildTurnsAux, renderRun, runContent, processChunk, chunkSource,
      sysInstrText, docThought, cThought, cAnswer, envC, ctxC, cfgC, pyOrList, pyStrip, joinSep,
      chunkRoleEq, strTruthy, indentQuoted]
    decide

/-- C1 counterexample: a chunk list whose maximal model run carries no
content renders zero turns, not exactly one. -/
theorem C1_cex :
    buildTurnsAux envC ctxC cfgC "" true [{ role := some "model" }] = [] ∧
    buildConversationTurns envC ctxC cfgC docModelEmpty = "" := by
  constructor <;>
    simp [buildConversationTurns, buildTurnsAux, renderRun, runContent, processChunk, chunkSource,
      sysInstrText, docModelEmpty, envC, ctxC, cfgC, pyOrList, joinSep, chunkRoleEq, strTruthy,
      driveLink, ytLink, inlineFrag]

/-! C3: the system-instruction block and the first turn. -/

theorem runContent_user (env : Env) (ctx : Templates) (cfg : Config) (sys : String)
    (b : Bool) (run : List Chunk) :
    runContent env ctx cfg sys b "user" run =
      (run.foldl (processChunk env ctx "user")
        { turn_content := if b && (sys != "") then [spoilerBlock ctx sys] else [],
          pending_thoughts := [], grounding_data := none }).turn_content := by
  unfold runContent
  simp only [show (("user" : String) == "user") = true from rfl,
    show (("user" : String) == "model") = false from rfl, Bool.and_true, Bool.true_and,
    Bool.false_eq_true, if_false]

/-- C3 (amended): when the chunk at index 0 itself has role `user` and a
non-empty system instruction exists, the rendered collapsible
system-instruction block is the first content fragment of the first turn,
ahead of any chunk content; when any chunk — even a roleless one —
precedes the first user chunk, the block is dropped (see the
counterexample). -/
theorem C3_system_instruction (env : Env) (ctx : Templates) (cfg : Config) (sys : String)
    (c : Chunk) (rest : List Chunk) (hrole : c.role = some "user") (hsys : sys ≠ "") :
    ∃ tl, runContent env ctx cfg sys true "user" (c :: rest.takeWhile (chunkRoleEq c)) =
        spoilerBlock ctx sys :: tl ∧
      buildTurnsAux env ctx cfg sys true (c :: rest) =
        (ctx.roleHeader "user" ++ "\n\n" ++
          joinSep "\n\n" ((spoilerBlock ctx sys :: tl).filter (fun s => s != ""))) ::
          buildTurnsAux env ctx cfg sys false (rest.dropWhile (chunkRoleEq c)) := by
  have hinit : (true && (sys != "")) = true := by simp [hsys]
  obtain ⟨L, hL⟩ := runFold_content env ctx "user" (c :: rest.takeWhile (chunkRoleEq c))
    { turn_content := [spoilerBlock ctx sys], pending_thoughts := [], grounding_data := none }
  have hcontent : runContent env ctx cfg sys true "user" (c :: rest.takeWhile (chunkRoleEq c)) =
      spoilerBlock ctx sys :: L := by
    rw [runContent_user]
    simp only [hinit, if_true]
    rw [hL]
    rfl
  refine ⟨L, hcontent, ?_⟩
  have hstr : strTruthy c.role = true := by rw [hrole]; rfl
  rw [buildTurnsAux_cons, if_pos hstr, show c.role.getD "" = "user" by rw [hrole]; rfl]
  unfold renderRun
  rw [hcontent]
  simp

/-- Witness for C3: with the user chunk at index 0 and system instruction
`S`, the first turn opens with the rendered spoiler block. -/
theorem C3_witness :
    (∃ tl, runContent envC ctxC cfgC "S" true "user"
          ({ role := some "user", text := some "hi" } ::
            List.takeWhile (chunkRoleEq { role := some "user", text := some "hi" }) []) =
          spoilerBlock ctxC "S" :: tl ∧
        buildTurnsAux envC ctxC cfgC "S" true [{ role := some "user", text := some "hi" }] =
          (ctxC.roleHeader "user" ++ "\n\n" ++
            joinSep "\n\n" ((spoilerBlock ctxC "S" :: tl).filter (fun s => s != ""))) ::
            buildTurnsAux envC ctxC cfgC "S" false
              (List.dropWhile (chunkRoleEq { role := some "user", text := some "hi" }) [])) ∧
    buildConversationTurns envC ctxC cfgC docSys =
      "## User Prompt 👤\n\n> [!note]- System Instruction ⚙️\n> S\n\nhi" := by
  constructor
  · exact C3_system_instruction envC ctxC cfgC "S" { role := some "user", text := some "hi" } []
      rfl (by decide)
  · simp [buildConversationTurns, buildTurnsAux, renderRun, runContent, processChunk, chunkSource,
      sysInstrText, docSys, envC, ctxC, cfgC, pyOrList, pyStrip, joinSep, chunkRoleEq, strTruthy,
      spoilerBlock, indentQuoted]
    decide

/-- C3 counterexample: a roleless chunk ahead of the first user chunk
suppresses the system-instruction block, although the first turn of the
document is a user turn and the instruction is non-empty. -/
theorem C3_cex :
    buildConversationTurns envC ctxC cfgC docC3 = "## User Prompt 👤\n\nhi" ∧
    hasSub "[!note]".data (buildConversationTurns envC ctxC cfgC docC3).data = false ∧
    sysInstrText docC3 = "S" := by
  have h : buildConversationTurns envC ctxC cfgC docC3 = "## User Prompt 👤\n\nhi" := by
    simp [buildConversationTurns, buildTurnsAux, renderRun, runContent, processChunk, chunkSource,
      sysInstrText, docC3, envC, ctxC, cfgC, pyOrList, pyStrip, joinSep, chunkRoleEq, strTruthy]
    decide
  exact ⟨h, by rw [h]; decide, by decide⟩

/-! C4: turns with no collected fragments. -/

theorem attSilent_driveLink (env : Env) (label : String) (a : Option DriveAtt)
    (h : attSilent a = true) : driveLink env label a = [] := by
  cases a with
  | none => rfl
  | some a =>
    simp only [attSilent] at h
    simp only [driveLink]
    cases hid : a.id with
    | none => simp
    | some fid =>
      rw [hid] at h
      have : fid = "" := by simpa using h
      simp [this]

theorem ytSilent_link (yv : Option YouTubeVideo) (h : ytSilent yv = true) : ytLink yv = [] := by
  cases yv with
  | none => rfl
  | some yv =>
    simp only [ytSilent] at h
    simp only [ytLink]
    cases hid : yv.id with
    | none => simp
    | some vid =>
      rw [hid] at h
      have : vid = "" := by simpa using h
      simp [this]

theorem inlSilent_frag (env : Env) (idt : Option InlineData) (h : inlSilent idt = true) :
    inlineFrag env idt = [] := by
  cases idt with
  | none => rfl
  | some i =>
    simp only [inlSilent] at h
    simp only [inlineFrag]
    cases hd : i.data with
    | none => simp
    | some b =>
      rw [hd] at h
      simp only [Bool.or_eq_true, beq_iff_eq] at h
      by_cases hb : b = ""
      · simp [hb]
      · have h2 : (match i.mimeType with | some m => m == "" | none => true) = true := by
          rcases h with h | h
          · exact absurd h hb
          · simpa using h
        cases hm : i.mimeType with
        | none => simp [hb, hm]
        | some m =>
          rw [hm] at h2
          have : m = "" := by simpa using h2
          simp [this, hm]

theorem partSilent_frags (env : Env) (p : LPart) (h : partSilent p = true) :
    partFragments env p = [] := by
  unfold partSilent at h
  simp only [Bool.and_eq_true] at h
  obtain ⟨⟨⟨⟨ht, hinl⟩, hdi⟩, hdd⟩, hdv⟩ := h
  have htx : p.text = none := by simpa using ht
  unfold partFragments
  rw [htx, inlSilent_frag env p.inlineData hinl, attSilent_driveLink env "Image" p.driveImage hdi,
    attSilent_driveLink env "Document" p.driveDocument hdd,
    attSilent_driveLink env "Video" p.driveVideo hdv]
  rfl

theorem silentPartsFold (env : Env) (parts : List LPart)
    (h : ∀ p ∈ parts, partSilent p = true) :
    ∀ s : TurnState, parts.foldl (partStep env) s = s := by
  induction parts with
  | nil => intro s; rfl
  | cons p ps ih =>
    intro s
    have hstep : partStep env s p = s := by
      unfold partStep
      rw [partSilent_frags env p (h p (by simp)), dedupAppend_nil]
    calc (p :: ps).foldl (partStep env) s = ps.foldl (partStep env) (partStep env s p) := rfl
      _ = ps.foldl (partStep env) s := by rw [hstep]
      _ = s := ih (fun q hq => h q (by simp [hq])) s

theorem processChunk_silent (env : Env) (ctx : Templates) (cfg : Config) (r : String)
    (st : TurnState) (c : Chunk) (h : chunkSilent cfg r c = true) :
    (processChunk env ctx r st c).turn_content = st.turn_content ∧
    (processChunk env ctx r st c).pending_thoughts = st.pending_thoughts ∧
    ((r == "model" && cfg.enable_grounding_metadata) = true →
      (processChunk env ctx r st c).grounding_data = st.grounding_data) := by
  unfold chunkSilent at h
  unfold processChunk
  by_cases hm : (r == "model" && c.isThought) = true
  · rw [if_pos hm] at h ⊢
    have hempty : (pyStrip (c.text.getD "") != "") = false := by
      have hps : pyStrip (c.text.getD "") = "" := by simpa using h
      simp [hps]
    simp only [hempty, Bool.false_eq_true, if_false]
    exact ⟨trivial, trivial, fun _ => trivial⟩
  · rw [if_neg hm] at h ⊢
    simp only [Bool.and_eq_true] at h
    obtain ⟨⟨⟨⟨⟨⟨⟨ht, hdi⟩, hdd⟩, hdv⟩, hyt⟩, hinl⟩, hparts⟩, hg⟩ := h
    have htx : c.text = none := by simpa using ht
    have hfold := silentPartsFold env c.parts (fun p hp => List.all_eq_true.mp hparts p hp)
    simp only [htx, attSilent_driveLink env "Image" c.driveImage hdi,
      attSilent_driveLink env "Document" c.driveDocument hdd,
      attSilent_driveLink env "Video" c.driveVideo hdv, ytSilent_link c.youtubeVideo hyt,
      inlSilent_frag env c.inlineData hinl, List.append_nil, hfold]
    cases hgs : c.grounding.isSome with
    | false =>
      simp only [hgs, Bool.false_eq_true, if_false]
      exact ⟨trivial, trivial, fun _ => trivial⟩
    | true =>
      simp only [hgs, if_true]
      refine ⟨trivial, trivial, ?_⟩
      intro hrc
      simp only [Bool.and_eq_true] at hrc
      rw [hrc.1, hrc.2] at hg
      simp only [Bool.not_true, Bool.false_or] at hg
      have hgn : c.grounding = none := by simpa using hg
      rw [hgn] at hgs
      simp at hgs

theorem silentFold (env : Env) (ctx : Templates) (cfg : Config) (r : String)
    (l : List Chunk) (h : ∀ x ∈ l, chunkSilent cfg r x = true) :
    ∀ st : TurnState,
      (l.foldl (processChunk env ctx r) st).turn_content = st.turn_content ∧
      (l.foldl (processChunk env ctx r) st).pending_thoughts = st.pending_thoughts ∧
      ((r == "model" && cfg.enable_grounding_metadata) = true →
        (l.foldl (processChunk env ctx r) st).grounding_data = st.grounding_data) := by
  induction l with
  | nil => intro st; exact ⟨rfl, rfl, fun _ => rfl⟩
  | cons c cs ih =>
    intro st
    have hstep := processChunk_silent env ctx cfg r st c (h c (by simp))
    have hrest := ih (fun q hq => h q (by simp [hq])) (processChunk env ctx r st c)
    refine ⟨hrest.1.trans hstep.1, hrest.2.1.trans hstep.2.1, ?_⟩
    intro hrc
    exact (hrest.2.2 hrc).trans (hstep.2.2 hrc)

/-- C4 (amended): a turn all of whose chunks contribute no fragment at
all — no text key, no resolvable attachment, no thought text, no parts
fragments and no applicable grounding — is omitted entirely: no role
header is emitted.  (A turn whose collected fragments are present but all
empty after trimming still emits its header; see the counterexample.) -/
theorem C4_no_fragments_no_turn (env : Env) (ctx : Templates) (cfg : Config) (sys : String)
    (r : String) (cs : List Chunk) (hr : r ≠ "")
    (hroles : ∀ c ∈ cs, c.role = some r)
    (hsilent : ∀ c ∈ cs, chunkSilent cfg r c = true) :
    buildTurnsAux env ctx cfg sys false cs = [] := by
  cases cs with
  | nil => exact buildTurnsAux_nil env ctx cfg sys false
  | cons c rest =>
    have hc : c.role = some r := hroles c (by simp)
    have hstr : strTruthy c.role = true := by
      rw [hc]
      simpa [strTruthy] using hr
    rw [buildTurnsAux_cons, if_pos hstr]
    have hall : ∀ x ∈ rest, chunkRoleEq c x = true := by
      intro x hx
      simp [chunkRoleEq, hroles x (by simp [hx]), hc]
    rw [List.takeWhile_eq_self_iff.mpr hall, List.dropWhile_eq_nil_iff.mpr hall,
      buildTurnsAux_nil, show c.role.getD "" = r by rw [hc]; rfl]
    suffices hnone : renderRun env ctx cfg sys false r (c :: rest) = none by
      rw [hnone]
      rfl
    have hfold := silentFold env ctx cfg r (c :: rest) hsilent
      { turn_content := [], pending_thoughts := [], grounding_data := none }
    unfold renderRun
    suffices hcon : runContent env ctx cfg sys false r (c :: rest) = [] by
      rw [hcon]
      rfl
    unfold runContent
    simp only [Bool.false_and, Bool.false_eq_true, if_false]
    by_cases hrm : (r == "model") = true
    · simp only [hrm, if_true]
      by_cases hen : cfg.enable_grounding_metadata = true
      · rw [hfold.2.2 (by simp [hrm, hen])]
        rw [hfold.1, hfold.2.1]
        rfl
      · rw [hfold.1, hfold.2.1]
        cases hgd : ((c :: rest).foldl (processChunk env ctx r)
            { turn_content := [], pending_thoughts := [], grounding_data := none }).grounding_data with
        | none => rfl
        | some g =>
          have hen' : cfg.enable_grounding_metadata = false := by
            simpa using hen
          simp [hen']
    · simp only [hrm, Bool.false_eq_true, if_false]
      exact hfold.1

/-- Witness for C4 at a single user chunk with a role and nothing else. -/
theorem C4_witness :
    buildTurnsAux envC ctxC cfgC "" false [{ role := some "user" }] = [] :=
  C4_no_fragments_no_turn envC ctxC cfgC "" "user" [{ role := some "user" }] (by decide)
    (by decide) (by decide)

/-- C4 counterexample: a turn whose only fragment is whitespace-only text
still emits its role header (the code tests the fragment list for
non-emptiness, not for a non-empty fragment). -/
theorem C4_cex :
    buildConversationTurns envC ctxC cfgC docWs = "## User Prompt 👤\n\n" ∧
    buildConversationTurns envC ctxC cfgC docWs ≠ "" := by
  have h : buildConversationTurns envC ctxC cfgC docWs = "## User Prompt 👤\n\n" := by
    simp [buildConversationTurns, buildTurnsAux, renderRun, runContent, processChunk, chunkSource,
      sysInstrText, docWs, envC, ctxC, cfgC, pyOrList, pyStrip, joinSep, chunkRoleEq, strTruthy]
  exact ⟨h, by rw [h]; decide⟩

/-! C5: part-level extraction and the duplicate guard. -/

/-- C5 (amended): a part carrying a `text` key contributes its trimmed
text and its Drive attachments, but never its `inlineData` (the source
uses `elif`, so the embedded image is consulted only when the part has no
text); the produced part-fragments are appended exactly when their
concatenation does not already occur as a substring of an existing
content fragment, and are dropped otherwise. -/
theorem C5_parts (env : Env) (t : String) (idt : InlineData) (di dd dv : Option DriveAtt)
    (content frags : List String) :
    (partFragments env ⟨some t, some idt, di, dd, dv⟩ =
      [pyStrip t] ++ driveLink env "Image" di ++ driveLink env "Document" dd ++
        driveLink env "Video" dv) ∧
    (content.any (fun cp => hasSub (fullPartText frags).data cp.data) = true →
      dedupAppend content frags = content) ∧
    (content.any (fun cp => hasSub (fullPartText frags).data cp.data) = false →
      dedupAppend content frags = content ++ frags) := by
  refine ⟨rfl, ?_, ?_⟩ <;> intro h <;> simp [dedupAppend, h]

/-- Witness for C5: the both-fields part contributes only its text, and a
fragment list already covered by existing content is dropped. -/
theorem C5_witness :
    partFragments envC pBoth = [pyStrip "a"] ++ driveLink envC "Image" none ++
      driveLink envC "Document" none ++ driveLink envC "Video" none ∧
    dedupAppend ["xa"] ["a"] = ["xa"] := by
  have h := C5_parts envC "a" { data := some "zz", mimeType := some "image/png" } none none none
    ["xa"] ["a"]
  exact ⟨h.1, h.2.1 (by decide)⟩

/-- C5 counterexample: a part with both a `text` field and an inline
image contributes only the text fragment — the image fragment `IMG` that
the resolver would return never reaches the turn. -/
theorem C5_cex :
    partFragments envC pBoth = ["a"] ∧
    buildTurnsAux envC ctxC cfgC "" true [{ role := some "user", parts := [pBoth] }] =
      ["## User Prompt 👤\n\na"] ∧
    envC.save_image "zz" "image/png" = "IMG" := by
  refine ⟨rfl, ?_, rfl⟩
  simp [buildTurnsAux, renderRun, runContent, processChunk, envC, ctxC, cfgC, pyOrList, pyStrip,
    joinSep, chunkRoleEq, strTruthy, pBoth, partStep, partFragments, dedupAppend, hasSub,
    fullPartText, driveLink, ytLink, inlineFrag]
  decide

end LogConv
